import Mathlib

/-!
Verification of the `vscode-noir` extension's protocol-adaptation layer:
the debug-session launcher (`src/debugger.ts`, `resolveDebugConfiguration`,
`preflightCheckPrinter`) and the language-client test-tree synchronizer
(`Client`: `#runTest`, `#createTests`, `#updateTests`).

The embedding is shallow: TypeScript objects become Lean structures,
the event-driven subprocess handshake becomes an explicit exit-code
parameter, and the test-run traversal becomes a well-founded recursive
function over the explicit queue the source maintains.
-/

namespace Noir

/-! ## Debug launcher (`resolveDebugConfiguration`) -/

/-- The user-supplied `DebugConfiguration` fields the launcher reads.
`none` models a field absent from the launch configuration (JS `undefined`). -/
structure DebugConfiguration where
  type : Option String
  name : Option String
  request : Option String
  program : Option String
  projectFolder : Option String
  package : Option String
  proverName : Option String
  generateAcir : Option Bool
  skipInstrumentation : Option Bool
deriving DecidableEq, Repr

/-- The fully resolved launch configuration the provider returns. -/
structure LaunchConfiguration where
  type : String
  name : String
  request : String
  program : String
  projectFolder : String
  package : String
  proverName : String
  generateAcir : Bool
  skipInstrumentation : Bool
deriving DecidableEq, Repr

/-- JS `a || b` on an optional string: an absent or empty (falsy) string
falls back to the default. -/
def strOr (o : Option String) (d : String) : String :=
  match o with
  | some s => if s = "" then d else s
  | none => d

/-- JS `a || b` on an optional boolean with a `false` default:
`undefined || false` and `false || false` are `false`, `true || false` is `true`. -/
def boolOrFalse (o : Option Bool) : Bool :=
  match o with
  | some b => b
  | none => false

/-- `resolvedConfig` as built at src/debugger.ts lines 67-77:
`config.projectFolder && config.projectFolder !== '' ? config.projectFolder
: findNearestPackageFrom(currentFilePath)`, each remaining field merged
with `||` over its default, `request` fixed to `'launch'` and `program`
fixed to the current file path. `nearestPackageFrom` stands for
`findNearestPackageFrom`. -/
def resolveConfig (config : DebugConfiguration) (currentFilePath : String)
    (nearestPackageFrom : String → String) : LaunchConfiguration :=
  let projectFolder :=
    match config.projectFolder with
    | some s => if s ≠ "" then s else nearestPackageFrom currentFilePath
    | none => nearestPackageFrom currentFilePath
  { type := strOr config.type "noir"
    name := strOr config.name "Noir binary package"
    request := "launch"
    program := currentFilePath
    projectFolder := projectFolder
    package := strOr config.package ""
    proverName := strOr config.proverName "Prover"
    generateAcir := boolOrFalse config.generateAcir
    skipInstrumentation := boolOrFalse config.skipInstrumentation }

/-- The argument list handed to `spawn(nargoPath, preflightArgs)`
(src/debugger.ts lines 90-110): the base `dap --preflight-check` arguments
from the resolved configuration, then `--preflight-package` with the raw
`config.package` when the resolved package is nonempty, then the two
boolean flags. -/
def preflightArgs (config : DebugConfiguration) (resolvedConfig : LaunchConfiguration) :
    List String :=
  let base := ["dap", "--preflight-check",
    "--preflight-project-folder", resolvedConfig.projectFolder,
    "--preflight-prover-name", resolvedConfig.proverName]
  let withPackage :=
    if resolvedConfig.package ≠ "" then
      base ++ ["--preflight-package", (config.package).getD ""]
    else base
  let withAcir :=
    if resolvedConfig.generateAcir then
      withPackage ++ ["--preflight-generate-acir"]
    else withPackage
  if resolvedConfig.skipInstrumentation then
    withAcir ++ ["--preflight-skip-instrumentation"]
  else withAcir

/-- The possible outcomes of `resolveDebugConfiguration`: an informational
message when no Noir file is active, a thrown error, or a resolved
configuration. -/
inductive ResolveResult where
  | infoMessage (msg : String)
  | thrown (msg : String)
  | config (c : LaunchConfiguration)
deriving DecidableEq, Repr

/-- `resolveDebugConfiguration` (src/debugger.ts lines 50-137) with its
environment made explicit: `activeLanguageId` is
`window.activeTextEditor?.document.languageId` (`none` when there is no
active editor), `currentFilePath` is the active document's path,
`nearestPackageFrom` is `findNearestPackageFrom`, and `exitCode` is the
code the pre-flight subprocess exits with (`none` models a null code from a
signal-killed process). The `exit` handler resolves the monitor promise
with `code == 0`, so anything but `some 0` throws. -/
def resolveDebugConfiguration (activeLanguageId : Option String)
    (config : DebugConfiguration) (currentFilePath : String)
    (nearestPackageFrom : String → String) (exitCode : Option Int) : ResolveResult :=
  if activeLanguageId ≠ some "noir" then
    .infoMessage "Select a Noir file to debug"
  else
    let resolvedConfig := resolveConfig config currentFilePath nearestPackageFrom
    if exitCode ≠ some 0 then
      .thrown "Error launching debugger. Please inspect the Output pane for more details."
    else
      .config resolvedConfig

/-! ## Output sanitizer (`preflightCheckPrinter`) -/

/-- A parameter byte of a CSI sequence: the regex class from `0` to `?`
(0x30-0x3F). -/
def isCsiParam (c : Char) : Bool := 0x30 ≤ c.toNat ∧ c.toNat ≤ 0x3F

/-- An intermediate byte of a CSI sequence: the regex class from space to
`/` (0x20-0x2F). -/
def isCsiInter (c : Char) : Bool := 0x20 ≤ c.toNat ∧ c.toNat ≤ 0x2F

/-- A final byte of a CSI sequence: the regex class from `@` to `~`
(0x40-0x7E). -/
def isCsiFinal (c : Char) : Bool := 0x40 ≤ c.toNat ∧ c.toNat ≤ 0x7E

/-- A character matching the first alternative of the ANSI regex,
the class of `@` to `Z`, backslash to underscore (0x40-0x5A, 0x5C-0x5F). -/
def isFeChar (c : Char) : Bool :=
  (0x40 ≤ c.toNat ∧ c.toNat ≤ 0x5A) ∨ (0x5C ≤ c.toNat ∧ c.toNat ≤ 0x5F)

/-- Match the tail of a CSI sequence after `ESC [`: zero or more parameter
bytes, zero or more intermediate bytes, then one final byte; the three
classes are pairwise disjoint so the greedy regex never backtracks.
Returns the remaining input on success. -/
def matchCsiTail (cs : List Char) : Option (List Char) :=
  match (cs.dropWhile isCsiParam).dropWhile isCsiInter with
  | f :: rest => if isCsiFinal f then some rest else none
  | [] => none

theorem matchCsiTail_length {cs rest : List Char} (h : matchCsiTail cs = some rest) :
    rest.length < cs.length + 1 := by
  unfold matchCsiTail at h
  rcases hd : (cs.dropWhile isCsiParam).dropWhile isCsiInter with _ | ⟨f, tl⟩
  · rw [hd] at h; exact absurd h (by simp)
  · rw [hd] at h
    by_cases hf : isCsiFinal f
    · simp [hf] at h
      subst h
      have h1 : tl.length < ((cs.dropWhile isCsiParam).dropWhile isCsiInter).length := by
        rw [hd]; simp
      have h2 : ((cs.dropWhile isCsiParam).dropWhile isCsiInter).length ≤
          (cs.dropWhile isCsiParam).length := (List.dropWhile_sublist _).length_le
      have h3 : (cs.dropWhile isCsiParam).length ≤ cs.length :=
        (List.dropWhile_sublist _).length_le
      omega
    · exact absurd h (by simp [hf])

/-- The first `replace` of `preflightCheckPrinter`: delete every match of
the global regex ESC followed by either a single byte in 0x40-0x5A, 0x5C-0x5F
or a full CSI sequence, scanning left to right; an ESC with no match after
it is kept (stage two removes it). -/
def stripAnsi : List Char → List Char
  | [] => []
  | c :: cs =>
    if c.toNat = 0x1B then
      match cs with
      | d :: ds =>
        if isFeChar d then stripAnsi ds
        else if d = '[' then
          match h : matchCsiTail ds with
          | some rest => stripAnsi rest
          | none => c :: stripAnsi (d :: ds)
        else c :: stripAnsi (d :: ds)
      | [] => [c]
    else c :: stripAnsi cs
termination_by l => l.length
decreasing_by
  · simp; omega
  · have := matchCsiTail_length h; simp; omega
  · simp
  · simp
  · simp

/-- A character surviving the second `replace`: the complement of the class
excluded by the regex on characters outside space-to-tilde, newline, tab. -/
def isPaneSafe (c : Char) : Bool :=
  (0x20 ≤ c.toNat ∧ c.toNat ≤ 0x7E) ∨ c = '\n' ∨ c = '\t'

/-- `preflightCheckPrinter`'s formatting pipeline (src/debugger.ts lines
148-156): strip ANSI escape sequences, then delete every character outside
printable ASCII, newline and tab. -/
def preflightCheckPrinter (cs : List Char) : List Char :=
  (stripAnsi cs).filter isPaneSafe

/-! ## Test-run traversal (`Client.#runTest`) -/

/-- A node of the host's test tree: its id, whether `test.parent` is set
(false exactly for the package roots stored in `testController.items`),
and its `children` collection in insertion order. -/
inductive TestItem where
  | mk (id : String) (hasParent : Bool) (children : List TestItem)

def TestItem.id : TestItem → String
  | .mk i _ _ => i

def TestItem.hasParent : TestItem → Bool
  | .mk _ p _ => p

def TestItem.children : TestItem → List TestItem
  | .mk _ _ c => c

/-- The verdict field of a `RunTestResult` from `nargo/tests/run`. -/
inductive RunVerdict where
  | pass
  | fail
  | error
deriving DecidableEq, Repr

/-- Observable actions of one `#runTest` traversal, in order: a
`nargo/tests/run` request sent for an id, and the `run.passed`/`run.failed`
reports applied to the host's run object. -/
inductive RunAction where
  | request (id : String)
  | passed (id : String)
  | failed (id : String) (message : String)
deriving DecidableEq, Repr

mutual

def TestItem.size : TestItem → Nat
  | .mk _ _ cs => 1 + TestItem.sizeList cs

def TestItem.sizeList : List TestItem → Nat
  | [] => 0
  | t :: ts => t.size + TestItem.sizeList ts

end

theorem TestItem.sizeList_append (xs ys : List TestItem) :
    TestItem.sizeList (xs ++ ys) = TestItem.sizeList xs + TestItem.sizeList ys := by
  induction xs with
  | nil => simp [TestItem.sizeList]
  | cons t ts ih => simp [TestItem.sizeList, ih]; omega

theorem TestItem.sizeList_children_lt (t : TestItem) :
    TestItem.sizeList t.children < t.size := by
  cases t with
  | mk i p c => simp [TestItem.size, TestItem.sizeList, TestItem.children]

theorem TestItem.sizeList_eq_dropLast_add (q : TestItem) (qs : List TestItem)
    (h : q :: qs ≠ []) :
    TestItem.sizeList (q :: qs) =
      TestItem.sizeList (q :: qs).dropLast + TestItem.size ((q :: qs).getLast h) := by
  conv_lhs => rw [← List.dropLast_append_getLast h]
  rw [TestItem.sizeList_append]
  simp [TestItem.sizeList]

theorem TestItem.sizeList_dropLast_lt (q : TestItem) (qs : List TestItem) :
    TestItem.sizeList (q :: qs).dropLast < TestItem.sizeList (q :: qs) := by
  rw [TestItem.sizeList_eq_dropLast_add q qs (List.cons_ne_nil q qs)]
  have := TestItem.sizeList_children_lt ((q :: qs).getLast (List.cons_ne_nil q qs))
  omega

theorem TestItem.sizeList_dropLast_children_lt (q : TestItem) (qs : List TestItem)
    (h : q :: qs ≠ []) :
    TestItem.sizeList ((q :: qs).dropLast ++ ((q :: qs).getLast h).children) <
      TestItem.sizeList (q :: qs) := by
  rw [TestItem.sizeList_append, TestItem.sizeList_eq_dropLast_add q qs h]
  have := TestItem.sizeList_children_lt ((q :: qs).getLast h)
  omega

/-- The while loop of `#runTest` (src lines 400-439). The queue is the
source's array: `queue.pop()` takes the last element, `forEach(push)`
appends. `server` models the `nargo/tests/run` round trip, `excluded`
the `request.exclude` membership test, and `cancelled i` the value of
`token.isCancellationRequested` at the i-th loop-condition check. Returns
the trace of actions. -/
def runTestLoop (server : String → RunVerdict × String) (excluded : String → Bool)
    (cancelled : Nat → Bool) (i : Nat) (queue : List TestItem) : List RunAction :=
  match queue with
  | [] => []
  | q :: qs =>
    if cancelled i then []
    else
      let test := (q :: qs).getLast (List.cons_ne_nil q qs)
      let rest := (q :: qs).dropLast
      if excluded test.id then
        runTestLoop server excluded cancelled (i + 1) rest
      else if test.hasParent then
        let (result, message) := server test.id
        RunAction.request test.id ::
          (match result with
            | .pass => RunAction.passed test.id
            | .fail => RunAction.failed test.id message
            | .error => RunAction.failed test.id message) ::
          runTestLoop server excluded cancelled (i + 1) rest
      else
        runTestLoop server excluded cancelled (i + 1) (rest ++ test.children)
termination_by TestItem.sizeList queue
decreasing_by
  all_goals first
    | apply TestItem.sizeList_dropLast_lt
    | apply TestItem.sizeList_dropLast_children_lt

mutual

/-- Ids of the leaf tests a `#runTest` traversal can reach from a queue of
nodes: an excluded node contributes nothing (its subtree is cut off), a
node with a parent contributes its own id, and a root node contributes
whatever is reachable through its children. -/
def reachableRequestIds (excluded : String → Bool) : List TestItem → List String
  | [] => []
  | t :: ts => reachableRequestIdsOf excluded t ++ reachableRequestIds excluded ts

/-- Ids reachable from one node; see `reachableRequestIds`. -/
def reachableRequestIdsOf (excluded : String → Bool) : TestItem → List String
  | .mk i p cs =>
    if excluded i then []
    else if p then [i]
    else reachableRequestIds excluded cs

end

mutual

/-- All nodes of a forest, each node followed by its descendants. -/
def allNodes : List TestItem → List TestItem
  | [] => []
  | t :: ts => allNodesOf t ++ allNodes ts

/-- A node together with all of its descendants. -/
def allNodesOf : TestItem → List TestItem
  | .mk i p cs => .mk i p cs :: allNodes cs

end

/-! ## Test-tree synchronization (`Client.#createTests`, `Client.#updateTests`) -/

/-- A source range attached to a test (line/character start and end). -/
structure NoirRange where
  startLine : Nat
  startChar : Nat
  endLine : Nat
  endChar : Nat
deriving DecidableEq, Repr

/-- One test entry of a `nargo/tests/update` or `nargo/tests` payload. -/
structure NargoTest where
  id : String
  label : String
  uri : String
  range : NoirRange
deriving DecidableEq, Repr

/-- The `NargoTests` payload: one package's snapshot. -/
structure NargoTests where
  package : String
  uri : String
  tests : List NargoTest
deriving DecidableEq, Repr

/-- A leaf test item as stored in a package's `children` collection. -/
structure ChildItem where
  id : String
  label : String
  uri : String
  range : NoirRange
deriving DecidableEq, Repr

/-- A package (root) item of the test controller's `items` collection. -/
structure PackageItem where
  id : String
  label : String
  children : List ChildItem
deriving DecidableEq, Repr

/-- `TestItemCollection.add` semantics on a children collection: an item
with the same id replaces the existing entry, otherwise it is appended. -/
def addChild (cs : List ChildItem) (c : ChildItem) : List ChildItem :=
  if cs.any (fun x => x.id = c.id) then
    cs.map (fun x => if x.id = c.id then c else x)
  else cs ++ [c]

/-- `TestItemCollection.add` semantics on the controller's root `items`
collection: same-id replacement, otherwise append. -/
def addPackage (items : List PackageItem) (p : PackageItem) : List PackageItem :=
  if items.any (fun x => x.id = p.id) then
    items.map (fun x => if x.id = p.id then p else x)
  else items ++ [p]

/-- The child item built from one test of a payload:
`createTestItem(test.id, test.label, Uri.parse(test.uri))` with
`item.range = test.range`. -/
def childOfTest (t : NargoTest) : ChildItem :=
  { id := t.id, label := t.label, uri := t.uri, range := t.range }

/-- `#createTests` (src lines 444-454): create a fresh package item labelled
by the package name, add one child per test of the payload in payload
order, then add the package to the controller's items. -/
def createTests (items : List PackageItem) (td : NargoTests) : List PackageItem :=
  let pkgChildren := td.tests.foldl (fun cs t => addChild cs (childOfTest t)) []
  addPackage items { id := td.package, label := td.package, children := pkgChildren }

/-- `#updateTests` (src lines 456-464): invalidate prior results for the
package (a UI-state call that does not touch the tree) and rebuild the
package via `#createTests`. -/
def updateTests (items : List PackageItem) (td : NargoTests) : List PackageItem :=
  createTests items td

/-- Look a package up by id in the controller's items, first match. -/
def findPackage (items : List PackageItem) (pkgId : String) : Option PackageItem :=
  items.find? (fun p => p.id = pkgId)

/-! ## Sample inputs used by witnesses and scenarios -/

/-- A launch configuration supplying only the scenario fields of the
pre-flight command claim. -/
def scenarioConfig : DebugConfiguration :=
  { type := none, name := none, request := none, program := none,
    projectFolder := some "/proj", package := some "", proverName := some "Prover",
    generateAcir := some false, skipInstrumentation := some false }

/-- A launch configuration supplying explicit `request` and `program`
overrides that the provider ignores. -/
def overrideConfig : DebugConfiguration :=
  { type := none, name := none, request := some "attach", program := some "/elsewhere/other.nr",
    projectFolder := some "/proj", package := none, proverName := none,
    generateAcir := none, skipInstrumentation := none }

/-- A launch configuration with every field absent. -/
def emptyConfig : DebugConfiguration :=
  { type := none, name := none, request := none, program := none,
    projectFolder := none, package := none, proverName := none,
    generateAcir := none, skipInstrumentation := none }

/-- A degenerate source range for sample tests. -/
def sampleRange : NoirRange := { startLine := 0, startChar := 0, endLine := 0, endChar := 0 }

/-- A controller state holding package `P` with two tests, one of which the
next snapshot will drop. -/
def stalePackageItems : List PackageItem :=
  [{ id := "P", label := "P",
     children := [{ id := "P#t_old", label := "t_old", uri := "u", range := sampleRange },
                  { id := "P#t_keep", label := "t_keep", uri := "u", range := sampleRange }] }]

/-- An update payload for package `P` carrying only one of its two previous
tests. -/
def snapshotPayload : NargoTests :=
  { package := "P", uri := "u",
    tests := [{ id := "P#t_keep", label := "t_keep", uri := "u", range := sampleRange }] }

/-- A leaf test `T1` (it has a parent). -/
def itemT1 : TestItem := .mk "T1" true []

/-- A leaf test `T2` (it has a parent). -/
def itemT2 : TestItem := .mk "T2" true []

/-- A package root `A` whose children were pushed in the order `[T1, T2]`. -/
def itemA : TestItem := .mk "A" false [itemT1, itemT2]

/-! ## Theorems about the debug launcher -/

/-- C1: when the pre-flight subprocess exits with code 0 (with a Noir file
active), `resolveDebugConfiguration` returns a configuration whose
`program` is the current file's path and whose `projectFolder` is the
user-supplied override when a nonempty one is given, and otherwise the
nearest-ancestor package root computed from the current file's path. -/
theorem resolveDebugConfiguration_success_fields (config : DebugConfiguration)
    (currentFilePath : String) (nearestPackageFrom : String → String) :
    ∃ rc : LaunchConfiguration,
      resolveDebugConfiguration (some "noir") config currentFilePath
        nearestPackageFrom (some 0) = .config rc ∧
      rc.program = currentFilePath ∧
      (∀ s, config.projectFolder = some s → s ≠ "" → rc.projectFolder = s) ∧
      (config.projectFolder = none ∨ config.projectFolder = some "" →
        rc.projectFolder = nearestPackageFrom currentFilePath) := by
  refine ⟨resolveConfig config currentFilePath nearestPackageFrom, ?_, rfl, ?_, ?_⟩
  · simp [resolveDebugConfiguration]
  · intro s hs hne
    simp [resolveConfig, hs, hne]
  · rintro (h | h) <;> simp [resolveConfig, h]

/-- Witness for C1 at a concrete configuration carrying the override
`/proj`, a file path, and exit code 0. -/
theorem resolveDebugConfiguration_success_fields_witness :
    ∃ rc : LaunchConfiguration,
      resolveDebugConfiguration (some "noir") scenarioConfig "/proj/src/main.nr"
        (fun _ => "/fallback") (some 0) = .config rc ∧
      rc.program = "/proj/src/main.nr" ∧ rc.projectFolder = "/proj" := by
  obtain ⟨rc, hret, hprog, hover, _⟩ :=
    resolveDebugConfiguration_success_fields scenarioConfig "/proj/src/main.nr"
      (fun _ => "/fallback")
  exact ⟨rc, hret, hprog, hover "/proj" rfl (by decide)⟩

/-- C2: when the pre-flight subprocess exits with a nonzero code (with a
Noir file active), `resolveDebugConfiguration` throws and never returns a
launch configuration. -/
theorem resolveDebugConfiguration_nonzero_throws (config : DebugConfiguration)
    (currentFilePath : String) (nearestPackageFrom : String → String)
    (code : Int) (h : code ≠ 0) :
    resolveDebugConfiguration (some "noir") config currentFilePath
        nearestPackageFrom (some code) =
      .thrown "Error launching debugger. Please inspect the Output pane for more details." ∧
    ∀ rc : LaunchConfiguration,
      resolveDebugConfiguration (some "noir") config currentFilePath
        nearestPackageFrom (some code) ≠ .config rc := by
  constructor
  · simp [resolveDebugConfiguration, h]
  · intro rc
    simp [resolveDebugConfiguration, h]

/-- Witness for C2 at exit code 1. -/
theorem resolveDebugConfiguration_nonzero_throws_witness :
    resolveDebugConfiguration (some "noir") emptyConfig "/proj/src/main.nr"
        (fun _ => "/proj") (some 1) =
      .thrown "Error launching debugger. Please inspect the Output pane for more details." :=
  (resolveDebugConfiguration_nonzero_throws emptyConfig "/proj/src/main.nr"
    (fun _ => "/proj") 1 (by decide)).1

/-- C3: for the resolved configuration with `projectFolder` `/proj`,
`proverName` `Prover`, empty `package`, `generateAcir` false and
`skipInstrumentation` false, the spawned pre-flight argument list is
exactly the six base arguments, with no package, generate-acir or
skip-instrumentation flags. -/
theorem preflightArgs_scenario :
    preflightArgs scenarioConfig
        (resolveConfig scenarioConfig "/proj/src/main.nr" (fun _ => "/proj")) =
      ["dap", "--preflight-check", "--preflight-project-folder", "/proj",
       "--preflight-prover-name", "Prover"] := by
  decide

/-- C9 counterexample: the resolved configuration does not give a
user-supplied `request` or `program` precedence over the computed default:
supplying `request = "attach"` and `program = "/elsewhere/other.nr"` still
yields `request = "launch"` and `program` equal to the current file path. -/
theorem resolveConfig_override_ignored :
    overrideConfig.request = some "attach" ∧
    overrideConfig.program = some "/elsewhere/other.nr" ∧
    (resolveConfig overrideConfig "/proj/src/main.nr" (fun _ => "/proj")).request =
      "launch" ∧
    (resolveConfig overrideConfig "/proj/src/main.nr" (fun _ => "/proj")).program =
      "/proj/src/main.nr" ∧
    "launch" ≠ "attach" ∧ "/proj/src/main.nr" ≠ "/elsewhere/other.nr" := by
  refine ⟨rfl, rfl, rfl, rfl, by decide, by decide⟩

/-- C9 amended: the returned configuration merges overrides over defaults
for `type`, `name`, `projectFolder`, `proverName` (nonempty supplied
strings take precedence), for `package` (any supplied string takes
precedence), and for `generateAcir` and `skipInstrumentation` (any
supplied boolean takes precedence); `request` is always `launch` and
`program` is always the current file path, ignoring supplied values. -/
theorem resolveConfig_merge_amended (config : DebugConfiguration)
    (currentFilePath : String) (nearestPackageFrom : String → String) :
    (∀ s, config.type = some s → s ≠ "" →
      (resolveConfig config currentFilePath nearestPackageFrom).type = s) ∧
    (∀ s, config.name = some s → s ≠ "" →
      (resolveConfig config currentFilePath nearestPackageFrom).name = s) ∧
    (∀ s, config.projectFolder = some s → s ≠ "" →
      (resolveConfig config currentFilePath nearestPackageFrom).projectFolder = s) ∧
    (∀ s, config.package = some s →
      (resolveConfig config currentFilePath nearestPackageFrom).package = s) ∧
    (∀ s, config.proverName = some s → s ≠ "" →
      (resolveConfig config currentFilePath nearestPackageFrom).proverName = s) ∧
    (∀ b, config.generateAcir = some b →
      (resolveConfig config currentFilePath nearestPackageFrom).generateAcir = b) ∧
    (∀ b, config.skipInstrumentation = some b →
      (resolveConfig config currentFilePath nearestPackageFrom).skipInstrumentation = b) ∧
    (resolveConfig config currentFilePath nearestPackageFrom).request = "launch" ∧
    (resolveConfig config currentFilePath nearestPackageFrom).program = currentFilePath := by
  refine ⟨?_, ?_, ?_, ?_, ?_, ?_, ?_, rfl, rfl⟩
  · intro s hs hne; simp [resolveConfig, strOr, hs, hne]
  · intro s hs hne; simp [resolveConfig, strOr, hs, hne]
  · intro s hs hne; simp [resolveConfig, hs, hne]
  · intro s hs
    by_cases he : s = "" <;> simp [resolveConfig, strOr, hs, he]
  · intro s hs hne; simp [resolveConfig, strOr, hs, hne]
  · intro b hb; cases b <;> simp [resolveConfig, boolOrFalse, hb]
  · intro b hb; cases b <;> simp [resolveConfig, boolOrFalse, hb]

/-- Witness for the amended C9 at a concrete configuration. -/
theorem resolveConfig_merge_amended_witness :
    (resolveConfig scenarioConfig "/proj/src/main.nr" (fun _ => "/fallback")).projectFolder =
      "/proj" ∧
    (resolveConfig scenarioConfig "/proj/src/main.nr" (fun _ => "/fallback")).proverName =
      "Prover" := by
  obtain ⟨_, _, hpf, _, hpn, _, _, _, _⟩ :=
    resolveConfig_merge_amended scenarioConfig "/proj/src/main.nr" (fun _ => "/fallback")
  exact ⟨hpf "/proj" rfl (by decide), hpn "Prover" rfl (by decide)⟩

/-! ## Theorems about the output sanitizer -/

/-- C6: every character of the sanitizer's output lies in the set
{tab, newline, space through tilde}. -/
theorem preflightCheckPrinter_only_pane_safe (cs : List Char) (c : Char)
    (h : c ∈ preflightCheckPrinter cs) : isPaneSafe c := by
  unfold preflightCheckPrinter at h
  exact (List.mem_filter.mp h).2

/-- Witness for C6 on the input `a` followed by a bare escape byte. -/
theorem preflightCheckPrinter_only_pane_safe_witness : isPaneSafe 'a' :=
  preflightCheckPrinter_only_pane_safe ['a', '\x1B'] 'a' (by
    simp +decide [preflightCheckPrinter, stripAnsi, isPaneSafe])

theorem stripAnsi_of_no_esc (cs : List Char) (h : ∀ c ∈ cs, c.toNat ≠ 0x1B) :
    stripAnsi cs = cs := by
  induction cs with
  | nil => simp [stripAnsi]
  | cons c cs ih =>
    have hc : c.toNat ≠ 0x1B := h c (List.mem_cons_self c cs)
    have ih' := ih (fun d hd => h d (List.mem_cons_of_mem c hd))
    rw [stripAnsi.eq_def]
    simp [hc, ih']

/-- C7: on an input whose characters all lie in
{tab, newline, space through tilde} (hence containing no escape byte and
no ANSI escape sequence), the sanitizer is the identity. -/
theorem preflightCheckPrinter_identity_on_clean (cs : List Char)
    (h : ∀ c ∈ cs, isPaneSafe c) : preflightCheckPrinter cs = cs := by
  have hesc : ∀ c ∈ cs, c.toNat ≠ 0x1B := by
    intro c hc
    have hsafe := h c hc
    simp [isPaneSafe] at hsafe
    rcases hsafe with ⟨h1, h2⟩ | h1 | h1
    · omega
    · subst h1; decide
    · subst h1; decide
  unfold preflightCheckPrinter
  rw [stripAnsi_of_no_esc cs hesc]
  exact List.filter_eq_self.mpr h

/-- Witness for C7 on the clean input `hi`. -/
theorem preflightCheckPrinter_identity_on_clean_witness :
    preflightCheckPrinter ['h', 'i'] = ['h', 'i'] :=
  preflightCheckPrinter_identity_on_clean ['h', 'i'] (by decide)

/-! ## Theorems about the test-run traversal -/

theorem reachableRequestIds_append (excluded : String → Bool) (xs ys : List TestItem) :
    reachableRequestIds excluded (xs ++ ys) =
      reachableRequestIds excluded xs ++ reachableRequestIds excluded ys := by
  induction xs with
  | nil => simp [reachableRequestIds]
  | cons t ts ih => simp [reachableRequestIds, ih]

theorem reachableRequestIds_cons_split (excluded : String → Bool)
    (q : TestItem) (qs : List TestItem) :
    reachableRequestIds excluded (q :: qs) =
      reachableRequestIds excluded (q :: qs).dropLast ++
        reachableRequestIdsOf excluded ((q :: qs).getLast (List.cons_ne_nil q qs)) := by
  conv_lhs => rw [← List.dropLast_append_getLast (List.cons_ne_nil q qs)]
  rw [reachableRequestIds_append]
  simp [reachableRequestIds]

theorem runTestLoop_requests_reachable (server : String → RunVerdict × String)
    (excluded : String → Bool) (cancelled : Nat → Bool) (i : Nat)
    (queue : List TestItem) (tid : String)
    (h : RunAction.request tid ∈ runTestLoop server excluded cancelled i queue) :
    tid ∈ reachableRequestIds excluded queue := by
  induction i, queue using runTestLoop.induct server excluded cancelled with
  | case1 i => simp [runTestLoop] at h
  | case2 i t ts hc => rw [runTestLoop.eq_def] at h; simp [hc] at h
  | case3 i t ts hc test rest hex ih =>
    rw [runTestLoop.eq_def] at h
    simp only [test, rest] at hex ih
    simp only [hc, Bool.false_eq_true, if_false, hex, if_true] at h
    rw [reachableRequestIds_cons_split]
    exact List.mem_append_left _ (ih h)
  | case4 i t ts hc test rest hex hp result message hsrv ih =>
    rw [runTestLoop.eq_def] at h
    simp only [test, rest] at hex hp hsrv ih
    simp only [hc, Bool.false_eq_true, if_false, hex, hp, if_true, hsrv] at h
    rw [reachableRequestIds_cons_split]
    rcases List.mem_cons.mp h with heq | hrest
    · have htid : tid = ((t :: ts).getLast (List.cons_ne_nil t ts)).id := by
        injection heq
      subst htid
      apply List.mem_append_right
      cases hlast : (t :: ts).getLast (List.cons_ne_nil t ts) with
      | mk lid lp lcs =>
        rw [hlast] at hex hp
        simp only [TestItem.id, TestItem.hasParent] at hex hp ⊢
        simp [reachableRequestIdsOf, hex, hp]
    · rcases List.mem_cons.mp hrest with heq2 | hrec
      · exfalso
        cases result <;> simp at heq2
      · exact List.mem_append_left _ (ih hrec)
  | case5 i t ts hc test rest hex hp ih =>
    rw [runTestLoop.eq_def] at h
    simp only [test, rest] at hex hp ih
    simp only [hc, Bool.false_eq_true, if_false, hex, hp, if_true] at h
    have hmem := ih h
    rw [reachableRequestIds_append] at hmem
    rw [reachableRequestIds_cons_split]
    rcases List.mem_append.mp hmem with hl | hr
    · exact List.mem_append_left _ hl
    · apply List.mem_append_right
      cases hlast : (t :: ts).getLast (List.cons_ne_nil t ts) with
      | mk lid lp lcs =>
        rw [hlast] at hex hp hr
        simp only [TestItem.id] at hex
        simp only [TestItem.hasParent] at hp
        simp only [TestItem.children] at hr
        simp [reachableRequestIdsOf, hex, hp, hr]

theorem mem_reachableRequestIds_node (excluded : String → Bool) (ts : List TestItem)
    (tid : String) (h : tid ∈ reachableRequestIds excluded ts) :
    ∃ t, t ∈ allNodes ts ∧ t.id = tid ∧ t.hasParent = true ∧ excluded tid = false := by
  generalize hn : TestItem.sizeList ts = n
  induction n using Nat.strong_induction_on generalizing ts with
  | _ n IH =>
  cases ts with
  | nil => simp [reachableRequestIds] at h
  | cons t ts' =>
    subst hn
    rw [reachableRequestIds] at h
    rcases List.mem_append.mp h with h1 | h2
    · cases t with
      | mk i p cs =>
        rw [reachableRequestIdsOf] at h1
        by_cases hexi : excluded i
        · simp [hexi] at h1
        · by_cases hp : p
          · simp [hexi, hp] at h1
            subst h1
            refine ⟨.mk tid p cs, ?_, rfl, ?_, ?_⟩
            · simp [allNodes, allNodesOf]
            · simp [TestItem.hasParent, hp]
            · simpa using hexi
          · simp [hexi, hp] at h1
            have hlt : TestItem.sizeList cs <
                TestItem.sizeList (TestItem.mk i p cs :: ts') := by
              simp [TestItem.sizeList, TestItem.size]
              omega
            obtain ⟨u, hu, hid, hpar, hex⟩ := IH _ hlt cs h1 rfl
            refine ⟨u, ?_, hid, hpar, hex⟩
            simp [allNodes, allNodesOf]
            exact Or.inr (Or.inl hu)
    · have hlt : TestItem.sizeList ts' < TestItem.sizeList (t :: ts') := by
        cases t with
        | mk i p cs =>
          simp [TestItem.sizeList, TestItem.size]
      obtain ⟨u, hu, hid, hpar, hex⟩ := IH _ hlt ts' h2 rfl
      refine ⟨u, ?_, hid, hpar, hex⟩
      rw [allNodes]
      exact List.mem_append_right _ hu

/-- C4: for an initial queue holding the single package node `A` with
children pushed in the order `[T1, T2]`, with nothing excluded and no
cancellation, the traversal issues the run requests for the leaves in the
order `[T2, T1]` (last-pushed-first-popped): the full trace is the request
and pass report for `T2` followed by the request and pass report for
`T1`. -/
theorem runTest_stack_order :
    runTestLoop (fun _ => (.pass, "")) (fun _ => false) (fun _ => false) 0 [itemA] =
      [.request "T2", .passed "T2", .request "T1", .passed "T1"] := by
  simp [runTestLoop, itemA, itemT1, itemT2, TestItem.id, TestItem.hasParent,
    TestItem.children]

/-- C8: every `nargo/tests/run` request issued during a traversal names a
node of the queue's forest whose `parent` is set; a package (root) node,
having no parent, is never the subject of a run request — it is only
expanded into its children. -/
theorem runTest_requests_only_parent_nodes (server : String → RunVerdict × String)
    (excluded : String → Bool) (cancelled : Nat → Bool) (i : Nat)
    (queue : List TestItem) (tid : String)
    (h : RunAction.request tid ∈ runTestLoop server excluded cancelled i queue) :
    ∃ t, t ∈ allNodes queue ∧ t.id = tid ∧ t.hasParent = true := by
  obtain ⟨t, h1, h2, h3, _⟩ := mem_reachableRequestIds_node excluded queue tid
    (runTestLoop_requests_reachable server excluded cancelled i queue tid h)
  exact ⟨t, h1, h2, h3⟩

/-- Witness for C8: in the concrete run over package `A`, the request for
`T2` indeed targets a node with a parent. -/
theorem runTest_requests_only_parent_nodes_witness :
    ∃ t, t ∈ allNodes [itemA] ∧ t.id = "T2" ∧ t.hasParent = true :=
  runTest_requests_only_parent_nodes (fun _ => (.pass, "")) (fun _ => false)
    (fun _ => false) 0 [itemA] "T2" (by
      simp [runTestLoop, itemA, itemT1, itemT2, TestItem.id, TestItem.hasParent,
        TestItem.children])

/-- C10: an excluded node is dropped when dequeued, before its children
are ever pushed, so its whole subtree is cut off: placing an excluded
package anywhere in the queue, any id that is not reachable from the rest
of the queue — in particular any test living only under the excluded
package — is never the subject of a run request. -/
theorem runTest_exclusion_excludes_subtree (server : String → RunVerdict × String)
    (excluded : String → Bool) (cancelled : Nat → Bool) (i : Nat)
    (rootsBefore rootsAfter : List TestItem) (excludedRoot : TestItem)
    (hE : excluded excludedRoot.id = true) (tid : String)
    (hnot : tid ∉ reachableRequestIds excluded (rootsBefore ++ rootsAfter)) :
    RunAction.request tid ∉
      runTestLoop server excluded cancelled i
        (rootsBefore ++ [excludedRoot] ++ rootsAfter) := by
  intro hmem
  apply hnot
  have hreach := runTestLoop_requests_reachable server excluded cancelled i
    (rootsBefore ++ [excludedRoot] ++ rootsAfter) tid hmem
  rw [reachableRequestIds_append, reachableRequestIds_append] at hreach
  have hempty : reachableRequestIds excluded [excludedRoot] = [] := by
    cases excludedRoot with
    | mk i p cs =>
      simp only [TestItem.id] at hE
      simp [reachableRequestIds, reachableRequestIdsOf, hE]
  rw [hempty] at hreach
  rw [reachableRequestIds_append]
  simpa using hreach

/-- Witness for C10: with package `A` excluded, its child `T1` is never
requested. -/
theorem runTest_exclusion_excludes_subtree_witness :
    RunAction.request "T1" ∉
      runTestLoop (fun _ => (.pass, "")) (fun s => s == "A") (fun _ => false) 0
        [itemA] :=
  runTest_exclusion_excludes_subtree (fun _ => (.pass, "")) (fun s => s == "A")
    (fun _ => false) 0 [] [] itemA (by simp [itemA, TestItem.id]) "T1"
    (by simp [reachableRequestIds])

/-! ## Theorems about the test-tree rebuild -/

theorem addChild_of_fresh (cs : List ChildItem) (c : ChildItem)
    (h : ∀ x ∈ cs, x.id ≠ c.id) : addChild cs c = cs ++ [c] := by
  unfold addChild
  rw [if_neg]
  simp only [List.any_eq_true, not_exists, not_and]
  intro x hx
  simp [h x hx]

theorem foldl_addChild_of_nodup (tests : List NargoTest) (acc : List ChildItem)
    (hdisj : ∀ t ∈ tests, ∀ x ∈ acc, x.id ≠ t.id)
    (hnodup : (tests.map NargoTest.id).Nodup) :
    tests.foldl (fun cs t => addChild cs (childOfTest t)) acc =
      acc ++ tests.map childOfTest := by
  induction tests generalizing acc with
  | nil => simp
  | cons t ts ih =>
    rw [List.foldl_cons]
    rw [addChild_of_fresh acc (childOfTest t) (fun x hx => hdisj t (by simp) x hx)]
    rw [ih (acc ++ [childOfTest t])]
    · simp
    · intro u hu x hx
      rcases List.mem_append.mp hx with hxa | hxc
      · exact hdisj u (List.mem_cons_of_mem t hu) x hxa
      · have : x = childOfTest t := by simpa using hxc
        subst this
        simp only [childOfTest]
        rw [List.map_cons] at hnodup
        have := (List.nodup_cons.mp hnodup).1
        intro heq
        apply this
        rw [heq]
        exact List.mem_map_of_mem NargoTest.id hu
    · rw [List.map_cons] at hnodup
      exact (List.nodup_cons.mp hnodup).2

theorem findPackage_addPackage (items : List PackageItem) (p : PackageItem) :
    findPackage (addPackage items p) p.id = some p := by
  induction items with
  | nil => simp [addPackage, findPackage]
  | cons x xs ih =>
    by_cases hx : x.id = p.id
    · unfold addPackage
      rw [if_pos]
      · simp only [List.map_cons, if_pos hx]
        simp [findPackage]
      · simp [hx]
    · unfold addPackage
      unfold addPackage at ih
      by_cases hany : xs.any (fun y => y.id = p.id)
      · rw [if_pos (by simp only [List.any_cons, Bool.or_eq_true]; exact Or.inr hany)]
        have hxf : (if x.id = p.id then p else x) = x := if_neg hx
        rw [List.map_cons, hxf]
        rw [if_pos hany] at ih
        unfold findPackage at ih ⊢
        rw [List.find?_cons_of_neg _ (by simp [hx])]
        exact ih
      · rw [if_neg (by simp only [List.any_cons]; simp [hx, hany])]
        rw [if_neg hany] at ih
        unfold findPackage at ih ⊢
        rw [List.cons_append]
        rw [List.find?_cons_of_neg _ (by simp [hx])]
        exact ih

/-- C5: a `tests/update` notification rebuilds the package subtree
destructively: afterwards the package's children are exactly the tests of
the snapshot, converted in the server-supplied order, and any child whose
id is not in the snapshot — in particular every previously present test
the snapshot dropped — is gone. -/
theorem updateTests_replaces_package (items : List PackageItem) (td : NargoTests)
    (hnodup : (td.tests.map NargoTest.id).Nodup) :
    findPackage (updateTests items td) td.package =
      some { id := td.package, label := td.package,
             children := td.tests.map childOfTest } ∧
    ∀ c : ChildItem, c.id ∉ td.tests.map NargoTest.id →
      ∀ pkg, findPackage (updateTests items td) td.package = some pkg →
        c ∉ pkg.children := by
  have hfold := foldl_addChild_of_nodup td.tests [] (by simp) hnodup
  have hmain : findPackage (updateTests items td) td.package =
      some { id := td.package, label := td.package,
             children := td.tests.map childOfTest } := by
    unfold updateTests createTests
    simp only [hfold, List.nil_append]
    exact findPackage_addPackage items
      { id := td.package, label := td.package, children := td.tests.map childOfTest }
  refine ⟨hmain, ?_⟩
  intro c hc pkg hpkg
  rw [hmain] at hpkg
  injection hpkg with h
  subst h
  intro hmem
  obtain ⟨t, ht, rfl⟩ := List.mem_map.mp hmem
  exact hc (List.mem_map_of_mem NargoTest.id ht)

/-- Witness for C5: updating package `P`, previously holding `t_old` and
`t_keep`, with a snapshot holding only `t_keep`, leaves exactly `t_keep`
and drops `t_old`. -/
theorem updateTests_replaces_package_witness :
    findPackage (updateTests stalePackageItems snapshotPayload) "P" =
      some { id := "P", label := "P",
             children := [{ id := "P#t_keep", label := "t_keep", uri := "u",
                            range := sampleRange }] } ∧
    ∀ pkg, findPackage (updateTests stalePackageItems snapshotPayload) "P" = some pkg →
      ({ id := "P#t_old", label := "t_old", uri := "u", range := sampleRange } :
        ChildItem) ∉ pkg.children := by
  obtain ⟨h1, h2⟩ :=
    updateTests_replaces_package stalePackageItems snapshotPayload (by decide)
  refine ⟨h1, ?_⟩
  intro pkg hpkg
  exact h2 _ (by decide) pkg hpkg

end Noir
